import Mathlib

/-!
# Verification of the PDF-quiz session state machine

Shallow embedding of the client-side quiz session implemented in
`src/app/page.tsx` of the repository.  The component keeps nine pieces of
React state (`pdfContent`, `questions`, `userAnswers`, `isPdfUploaded`,
`evaluationResults`, `questionCount`, `score`, `isLoading`, `isEvaluating`)
and mutates them through event handlers.  Each handler is embedded here as a
pure state transformer; the two opaque network calls (question generator and
answer evaluator) are passed in as explicit outcome values, and the
asynchronous file reads are likewise passed in as resolved values, so every
handler becomes a total function on `QuizState`.

JavaScript quirks are modelled explicitly:
* array index assignment past the end extends the array (`jsArraySet`);
* `arr[i]` past the end yields `undefined`, which is falsy and satisfies
  `undefined !== null` (`jsNeNull`, `List.getD`);
* the empty string is falsy (`strTruthy`);
* `Number.prototype.toString(16)` renders a byte without zero padding
  (`hexByte`);
* `parseInt(x) || 1` maps both `NaN` and `0` to `1` (`parseIntJS`,
  `questionCountFromInput`).
-/

/-- A generated multiple-choice question, from the generator contract
`{question: string, options: string[], answer: string}` (the TS type named
`Question` in `page.tsx`).  The 4-option shape is checked at render time,
not by the type. -/
structure Question where
  question : String
  options : List String
  answer : String
deriving DecidableEq, Repr

/-- The evaluator's response `EvaluateAnswerOutput`: stored results always
carry a numeric score, since a non-numeric score throws before storage. -/
structure EvaluationResult where
  score : Int
deriving DecidableEq, Repr

/-- The nine `useState` fields of the `Home` component, in source order. -/
structure QuizState where
  pdfContent : Option String
  questions : Option (List Question)
  userAnswers : List String
  isPdfUploaded : Bool
  evaluationResults : List (Option EvaluationResult)
  questionCount : Nat
  score : Nat
  isLoading : Bool
  isEvaluating : List Bool
deriving DecidableEq, Repr

/-- The initial state of the component: all `useState` default values. -/
def initialState : QuizState :=
  { pdfContent := none
    questions := none
    userAnswers := []
    isPdfUploaded := false
    evaluationResults := []
    questionCount := 5
    score := 0
    isLoading := false
    isEvaluating := [] }

/-- JS `copy[i] = v` on a copied array: in range it replaces the element, past
the end it extends the array.  JS fills the gap with holes reading back as
`undefined`; we model a hole by the given default `pad` (the `undefined`-like
value of each field's element type). -/
def jsArraySet {α : Type} (pad : α) (l : List α) (i : Nat) (v : α) : List α :=
  if i < l.length then l.set i v
  else l ++ List.replicate (i - l.length) pad ++ [v]

/-- Truthiness of the JS test `arr[i] !== null` on an array of
nullable values: false exactly when the index is in range and holds `null`
(an out-of-range read yields `undefined`, and `undefined !== null` is true). -/
def jsNeNull {α : Type} (l : List (Option α)) (i : Nat) : Bool :=
  match l.get? i with
  | some none => false
  | _ => true

/-- Truthiness of a nullable JS string (`null` and `""` are falsy). -/
def strTruthy (o : Option String) : Bool :=
  match o with
  | none => false
  | some s => s != ""

/-- `handleClear` (page.tsx lines 204-219): unconditionally resets every
session field to its initial value.  `questionCount` has no reset call, so it
keeps its current value. -/
def handleClear (s : QuizState) : QuizState :=
  { s with pdfContent := none
           questions := none
           userAnswers := []
           isPdfUploaded := false
           evaluationResults := []
           score := 0
           isLoading := false
           isEvaluating := [] }

/-- The hex digit alphabet used by JS `Number.prototype.toString(16)`
(lowercase). -/
def hexDigit : Nat → Char
  | 0 => '0' | 1 => '1' | 2 => '2' | 3 => '3'
  | 4 => '4' | 5 => '5' | 6 => '6' | 7 => '7'
  | 8 => '8' | 9 => '9' | 10 => 'a' | 11 => 'b'
  | 12 => 'c' | 13 => 'd' | 14 => 'e' | 15 => 'f'
  | _ => '0'

/-- JS `b.toString(16)` for a `Uint8Array` element (always `0 ≤ b < 256`):
one unpadded hex digit below 16, two digits otherwise. -/
def hexByte (b : Nat) : List Char :=
  if b < 16 then [hexDigit b] else [hexDigit (b / 16), hexDigit (b % 16)]

/-- The `header` string built by `handleFileUpload` (lines 45-49): the hex
renderings of the first four bytes, concatenated without padding. -/
def byteHeaderHex (bytes : List Nat) : List Char :=
  ((bytes.take 4).map hexByte).flatten

/-- The string `"25504446"` the header is compared against (line 50). -/
def pdfSignatureHex : List Char := ['2', '5', '5', '0', '4', '4', '4', '6']

/-- The four magic bytes `%PDF` = 0x25 0x50 0x44 0x46. -/
def pdfMagicBytes : List Nat := [0x25, 0x50, 0x44, 0x46]

/-- `handleFileUpload` (lines 29-88), with both asynchronous reads resolved:
`bytes` is the content delivered by the ArrayBuffer read and `textRead` the
outcome of the text read (`none` models a read error).  The handler first
resets the downstream state and sets `isLoading`; the onload callback then
checks the unpadded hex header against `"25504446"` and calls `handleClear`
on mismatch, otherwise stores the decoded text and flips `isPdfUploaded`. -/
def handleFileUpload (s : QuizState) (bytes : List Nat) (textRead : Option String) :
    QuizState :=
  let s1 := { s with isLoading := true
                     pdfContent := none
                     questions := none
                     userAnswers := []
                     evaluationResults := []
                     score := 0
                     isPdfUploaded := false }
  if byteHeaderHex bytes ≠ pdfSignatureHex then handleClear s1
  else
    match textRead with
    | none => handleClear s1
    | some content =>
        { s1 with pdfContent := some content
                  isPdfUploaded := true
                  isLoading := false }

/-- Outcome of the awaited `generateQuestionnaire` call. -/
inductive GenOutcome where
  /-- Resolved with a (possibly empty) question list. -/
  | ok (qs : List Question)
  /-- Resolved with a null questionnaire or null `questions` field. -/
  | nullResponse
  /-- The promise rejected with the given message. -/
  | err (msg : String)
deriving DecidableEq, Repr

/-- `handleGenerateQuestions` (lines 90-125) with the generator outcome made
explicit.  `if (!pdfContent) return` guards on string truthiness; a null,
missing or empty question list throws, landing in the catch block which
clears `questions`; the finally block clears `isLoading`.  On success the
four per-question arrays are initialised to the question count and the score
is reset.  `isEvaluating` is untouched on the failure path. -/
def handleGenerateQuestions (s : QuizState) (g : GenOutcome) : QuizState :=
  if strTruthy s.pdfContent = false then s
  else
    let s1 := { s with isLoading := true
                       questions := none
                       userAnswers := []
                       evaluationResults := []
                       score := 0 }
    match g with
    | .ok qs =>
        if qs.length = 0 then { s1 with questions := none, isLoading := false }
        else
          { s1 with questions := some qs
                    userAnswers := List.replicate qs.length ""
                    evaluationResults := List.replicate qs.length none
                    isEvaluating := List.replicate qs.length false
                    score := 0
                    isLoading := false }
    | .nullResponse => { s1 with questions := none, isLoading := false }
    | .err _ => { s1 with questions := none, isLoading := false }

/-- `handleAnswerChange` (lines 127-131): copies `userAnswers` and assigns at
`index` (JS assignment, so out of range would extend the copy). -/
def handleAnswerChange (s : QuizState) (i : Nat) (answer : String) : QuizState :=
  { s with userAnswers := jsArraySet "" s.userAnswers i answer }

/-- The `disabled` prop of the per-question `RadioGroup` (line 284):
`evaluationResults[index] !== null || isEvaluating[index]`. -/
def radioGroupDisabled (s : QuizState) (i : Nat) : Bool :=
  jsNeNull s.evaluationResults i || s.isEvaluating.getD i false

/-- The answer-selection operation as dispatchable from the UI: the
`RadioGroup` for index `i` only exists when the question does (the render
map) and its options pass the 4-choice check (line 277), and its
`onValueChange` only fires while it is not disabled.  When enabled it calls
`handleAnswerChange`. -/
def selectAnswer (s : QuizState) (i : Nat) (v : String) : QuizState :=
  match s.questions with
  | none => s
  | some qs =>
      match qs.get? i with
      | none => s
      | some q =>
          if q.options.length = 4 ∧ radioGroupDisabled s i = false then
            handleAnswerChange s i v
          else s

/-- The question at index `i`, i.e. JS `questions?.[index]`. -/
def questionAt (s : QuizState) (i : Nat) : Option Question :=
  match s.questions with
  | none => none
  | some qs => qs.get? i

/-- Outcome of the awaited `evaluateAnswer` call. -/
inductive EvalOutcome where
  /-- Resolved with a response whose `score` field is the number `sc`. -/
  | ok (sc : Int)
  /-- Resolved with a response whose `score` is not a number. -/
  | badResponse
  /-- The promise rejected with the given message. -/
  | err (msg : String)
deriving DecidableEq, Repr

/-- `handleSubmitAnswer` (lines 133-195) with the evaluator outcome made
explicit.  Preconditions (line 134): falsy `pdfContent`, missing
`questions?.[index]` or falsy `userAnswers[index]` make it a silent no-op.
Otherwise `isEvaluating[index]` is set, then: a numeric score is stored at
the index and `score===1` bumps the running total; a non-numeric score
throws; a rejection is caught; the catch block leaves `evaluationResults`
untouched; the finally block always clears `isEvaluating[index]`. -/
def handleSubmitAnswer (s : QuizState) (i : Nat) (ev : EvalOutcome) : QuizState :=
  if strTruthy s.pdfContent = false ∨ questionAt s i = none ∨
      s.userAnswers.getD i "" = "" then s
  else
    let s1 := { s with isEvaluating := jsArraySet false s.isEvaluating i true }
    let s2 :=
      match ev with
      | .ok sc =>
          let s' := { s1 with evaluationResults :=
                        jsArraySet none s1.evaluationResults i (some ⟨sc⟩) }
          if sc = 1 then { s' with score := s'.score + 1 } else s'
      | .badResponse => s1
      | .err _ => s1
    { s2 with isEvaluating := jsArraySet false s2.isEvaluating i false }

/-- The `disabled` prop of the per-question submit button (line 299):
no selected answer, an existing result, an in-flight evaluation, or an
invalid option shape each disable submission. -/
def submitDisabled (s : QuizState) (i : Nat) (q : Question) : Bool :=
  s.userAnswers.getD i "" == "" || jsNeNull s.evaluationResults i ||
    s.isEvaluating.getD i false || q.options.length != 4

/-- The answer-submission operation as dispatchable from the UI: the button
for index `i` only exists when the question does, and its `onClick` only
fires while it is not disabled.  When enabled it calls `handleSubmitAnswer`. -/
def submitAnswer (s : QuizState) (i : Nat) (ev : EvalOutcome) : QuizState :=
  match s.questions with
  | none => s
  | some qs =>
      match qs.get? i with
      | none => s
      | some q =>
          if submitDisabled s i q then s else handleSubmitAnswer s i ev

/-- `allAnswersEvaluated` (lines 198-202): false without questions or with an
empty list, otherwise `evaluationResults.every(result => result !== null)`. -/
def allAnswersEvaluated (s : QuizState) : Bool :=
  match s.questions with
  | none => false
  | some qs =>
      if qs.length = 0 then false
      else s.evaluationResults.all (fun r => r.isSome)

/-- Decimal digit test for `parseIntJS`. -/
def isDecDigitJS (c : Char) : Bool := '0' ≤ c && c ≤ '9'

/-- Hex digit test for `parseIntJS`. -/
def isHexDigitJS (c : Char) : Bool :=
  isDecDigitJS c || ('a' ≤ c && c ≤ 'f') || ('A' ≤ c && c ≤ 'F')

/-- Numeric value of a digit character (0 on non-digits, unreachable under
the digit tests). -/
def jsDigitVal (c : Char) : Nat :=
  if isDecDigitJS c then c.toNat - '0'.toNat
  else if 'a' ≤ c && c ≤ 'f' then c.toNat - 'a'.toNat + 10
  else if 'A' ≤ c && c ≤ 'F' then c.toNat - 'A'.toNat + 10
  else 0

/-- Horner evaluation of a digit list in the given base. -/
def digitsToNat (base : Nat) (ds : List Char) : Nat :=
  ds.foldl (fun a c => a * base + jsDigitVal c) 0

/-- ECMAScript `parseInt(string)` with the radix argument omitted: strip
leading whitespace, consume an optional sign, switch to base 16 on a
`0x`/`0X` marker, then read the longest run of digits; no digits means `NaN`,
modelled as `none`. -/
def parseIntJS (s : String) : Option Int :=
  let cs0 := s.toList.dropWhile Char.isWhitespace
  let sign : Int := match cs0 with
    | '-' :: _ => -1
    | _ => 1
  let cs1 := match cs0 with
    | '-' :: rest => rest
    | '+' :: rest => rest
    | _ => cs0
  let bc : Nat × List Char := match cs1 with
    | '0' :: 'x' :: rest => (16, rest)
    | '0' :: 'X' :: rest => (16, rest)
    | _ => (10, cs1)
  let digs := bc.2.takeWhile (fun c => if bc.1 = 16 then isHexDigitJS c else isDecDigitJS c)
  if digs.isEmpty then none
  else some (sign * (digitsToNat bc.1 digs : Nat))

/-- The `onChange` expression of the question-count input (line 247):
`Math.max(1, Math.min(20, parseInt(e.target.value) || 1))`.  `parseInt`
yielding `NaN` or `0` (both falsy) falls back to `1`. -/
def questionCountFromInput (raw : String) : Nat :=
  let p : Int := match parseIntJS raw with
    | none => 1
    | some n => if n = 0 then 1 else n
  (max 1 (min 20 p)).toNat

/-- The question-count `onChange` handler: stores the clamped value. -/
def handleQuestionCountChange (s : QuizState) (raw : String) : QuizState :=
  { s with questionCount := questionCountFromInput raw }

/-- The per-question array-length invariant: once `questions` is non-null,
`userAnswers`, `evaluationResults` and `isEvaluating` all have the question
count as their length. -/
def lengthInvariant (s : QuizState) : Prop :=
  match s.questions with
  | none => True
  | some qs =>
      s.userAnswers.length = qs.length ∧
      s.evaluationResults.length = qs.length ∧
      s.isEvaluating.length = qs.length

/-! ## Helper lemmas about the JS array model -/

theorem jsArraySet_get?_self {α : Type} (pad : α) (l : List α) (i : Nat) (v : α) :
    (jsArraySet pad l i v).get? i = some v := by
  unfold jsArraySet
  split
  · next h =>
      rw [List.get?_eq_getElem?]
      exact List.getElem?_set_eq_of_lt v h
  · next h =>
      rw [List.get?_eq_getElem?]
      rw [List.getElem?_append_right (by simp; omega)]
      have hl : (l ++ List.replicate (i - l.length) pad).length = i := by simp; omega
      rw [hl, Nat.sub_self]
      rfl

theorem jsArraySet_getD_self {α : Type} (pad : α) (l : List α) (i : Nat) (v d : α) :
    (jsArraySet pad l i v).getD i d = v := by
  rw [List.getD_eq_getD_get?, jsArraySet_get?_self]
  rfl

theorem jsArraySet_length_of_lt {α : Type} (pad : α) (l : List α) (i : Nat) (v : α)
    (h : i < l.length) : (jsArraySet pad l i v).length = l.length := by
  unfold jsArraySet
  rw [if_pos h, List.length_set]

theorem jsNeNull_of_getD_isSome {α : Type} (l : List (Option α)) (i : Nat)
    (h : (l.getD i none).isSome = true) : jsNeNull l i = true := by
  rw [List.getD_eq_getD_get?] at h
  unfold jsNeNull
  cases hg : l.get? i with
  | none => rfl
  | some o =>
      cases o with
      | none => rw [hg] at h; simp at h
      | some x => rfl

theorem jsNeNull_of_get?_some {α : Type} (l : List (Option α)) (i : Nat) (x : α)
    (h : l.get? i = some (some x)) : jsNeNull l i = true := by
  unfold jsNeNull
  rw [h]

theorem jsNeNull_eq_false_of_get?_none {α : Type} (l : List (Option α)) (i : Nat)
    (h : l.get? i = some none) : jsNeNull l i = false := by
  unfold jsNeNull
  rw [h]

/-! ## Claim theorems -/

/-- C8: `clear()`, invoked from any state, yields the Empty state:
`pdfContent = null`, `questions = null`, `userAnswers = []`,
`evaluationResults = []`, `score = 0`, `isPdfUploaded = false`,
`isEvaluating = []`, `isLoading = false`.  Totality of `handleClear` is the
"succeeds without error" part. -/
theorem handleClear_yields_empty (s : QuizState) :
    (handleClear s).pdfContent = none ∧ (handleClear s).questions = none ∧
    (handleClear s).userAnswers = [] ∧ (handleClear s).evaluationResults = [] ∧
    (handleClear s).score = 0 ∧ (handleClear s).isPdfUploaded = false ∧
    (handleClear s).isEvaluating = [] ∧ (handleClear s).isLoading = false :=
  ⟨rfl, rfl, rfl, rfl, rfl, rfl, rfl, rfl⟩

/-- C10: `clear()` leaves `questionCount` unchanged while resetting every
other session field; in particular clearing a session whose count was set to
12 keeps 12 rather than restoring the default 5. -/
theorem handleClear_keeps_questionCount (s : QuizState) :
    (handleClear s).questionCount = s.questionCount ∧
    (handleClear s).pdfContent = none ∧ (handleClear s).questions = none ∧
    (handleClear s).userAnswers = [] ∧ (handleClear s).isPdfUploaded = false ∧
    (handleClear s).evaluationResults = [] ∧ (handleClear s).score = 0 ∧
    (handleClear s).isLoading = false ∧ (handleClear s).isEvaluating = [] ∧
    (handleClear { initialState with questionCount := 12 }).questionCount = 12 :=
  ⟨rfl, rfl, rfl, rfl, rfl, rfl, rfl, rfl, rfl, rfl⟩

/-! ## Concrete sample states used by the witness theorems -/

/-- A well-shaped sample question. -/
def sampleQuestion : Question :=
  { question := "What is the capital?"
    options := ["A", "B", "C", "D"]
    answer := "A" }

/-- A session right after a successful PDF upload. -/
def fileReadyState : QuizState :=
  { initialState with pdfContent := some "sample pdf text", isPdfUploaded := true }

/-- A session with one generated question whose answer is selected but not
yet evaluated. -/
def answeredState : QuizState :=
  { pdfContent := some "sample pdf text"
    questions := some [sampleQuestion]
    userAnswers := ["A"]
    isPdfUploaded := true
    evaluationResults := [none]
    questionCount := 1
    score := 0
    isLoading := false
    isEvaluating := [false] }

/-- `answeredState` after its single question was evaluated as correct. -/
def evaluatedState : QuizState :=
  { answeredState with evaluationResults := [some { score := 1 }], score := 1 }

theorem clampNat_bounds (p : Int) :
    1 ≤ (max 1 (min 20 p)).toNat ∧ (max 1 (min 20 p)).toNat ≤ 20 := by
  omega

/-- C9: for every raw input to the question-count field the stored
`questionCount` is an integer in `[1, 20]`; `"-5"` yields 1, `"999"` yields
20, and empty or non-numeric input yields 1. -/
theorem questionCount_always_clamped (s : QuizState) (raw : String) :
    (1 ≤ (handleQuestionCountChange s raw).questionCount ∧
      (handleQuestionCountChange s raw).questionCount ≤ 20) ∧
    (handleQuestionCountChange s raw).questionCount = questionCountFromInput raw ∧
    questionCountFromInput "-5" = 1 ∧ questionCountFromInput "999" = 20 ∧
    questionCountFromInput "" = 1 ∧ questionCountFromInput "abc" = 1 := by
  refine ⟨?_, rfl, by decide, by decide, by decide, by decide⟩
  show 1 ≤ questionCountFromInput raw ∧ questionCountFromInput raw ≤ 20
  exact clampNat_bounds _

/-- C7: `allEvaluated` is true iff questions exist (non-null and non-empty)
and every question index holds a non-null evaluation result.  The length
invariant ties "every slot of `evaluationResults`" (what the code iterates)
to "every question index". -/
theorem allEvaluated_iff_every_index (s : QuizState)
    (hlen : ∀ qs, s.questions = some qs → s.evaluationResults.length = qs.length) :
    allAnswersEvaluated s = true ↔
      ∃ qs, s.questions = some qs ∧ qs ≠ [] ∧
        ∀ i, i < qs.length → (s.evaluationResults.getD i none).isSome = true := by
  cases hq : s.questions with
  | none => simp [allAnswersEvaluated, hq]
  | some qs =>
      have hl := hlen qs hq
      have hunfold : allAnswersEvaluated s =
          if qs.length = 0 then false
          else s.evaluationResults.all (fun r => r.isSome) := by
        unfold allAnswersEvaluated
        rw [hq]
      by_cases h0 : qs.length = 0
      · obtain rfl : qs = [] := List.length_eq_zero.mp h0
        rw [hunfold]
        simp
      · rw [hunfold, if_neg h0]
        constructor
        · intro h
          refine ⟨qs, rfl, fun he => h0 (by simp [he]), ?_⟩
          intro i hi
          have hi' : i < s.evaluationResults.length := by omega
          have hmem := List.all_eq_true.mp h _ (List.getElem_mem hi')
          rw [List.getD_eq_getElem _ _ hi']
          exact hmem
        · rintro ⟨qs', hq', hne, hall⟩
          obtain rfl : qs = qs' := by injection hq'
          refine List.all_eq_true.mpr ?_
          intro x hx
          obtain ⟨i, hi, rfl⟩ := List.mem_iff_getElem.mp hx
          have hi' : i < qs.length := by omega
          have := hall i hi'
          rw [List.getD_eq_getElem _ _ hi] at this
          exact this

/-- Witness for C7 at a completed one-question session. -/
theorem allEvaluated_iff_every_index_witness :
    allAnswersEvaluated evaluatedState = true :=
  (allEvaluated_iff_every_index evaluatedState
      (fun qs h => by
        simp only [evaluatedState, answeredState] at h
        injection h with h'
        subst h'
        decide)).mpr
    ⟨[sampleQuestion], rfl, by decide, by decide⟩

/-- C6: a failed generation attempt (rejection, null response, or empty
question list) returns the session to FileReady: `questions = null` and
`isLoading = false`, with `pdfContent` and `isPdfUploaded` untouched. -/
theorem generateFailure_returns_fileReady (s : QuizState) (g : GenOutcome)
    (hpdf : strTruthy s.pdfContent = true)
    (hfail : g = .nullResponse ∨ g = .ok [] ∨ ∃ m, g = .err m) :
    (handleGenerateQuestions s g).questions = none ∧
    (handleGenerateQuestions s g).isLoading = false ∧
    (handleGenerateQuestions s g).pdfContent = s.pdfContent ∧
    (handleGenerateQuestions s g).isPdfUploaded = s.isPdfUploaded := by
  rcases hfail with rfl | rfl | ⟨m, rfl⟩ <;>
    simp [handleGenerateQuestions, hpdf]

/-- Witness for C6: a rejected generator call at a FileReady session. -/
theorem generateFailure_returns_fileReady_witness :
    (handleGenerateQuestions fileReadyState (.err "x")).questions = none ∧
    (handleGenerateQuestions fileReadyState (.err "x")).isLoading = false ∧
    (handleGenerateQuestions fileReadyState (.err "x")).pdfContent =
      fileReadyState.pdfContent ∧
    (handleGenerateQuestions fileReadyState (.err "x")).isPdfUploaded =
      fileReadyState.isPdfUploaded :=
  generateFailure_returns_fileReady fileReadyState (.err "x") (by decide)
    (Or.inr (Or.inr ⟨"x", rfl⟩))

/-- C4: when evaluation of index `i` fails (rejected call, or a response
whose score is not numeric), the results array is untouched (the index stays
not-evaluated), the running score is unchanged, `evaluating[i]` ends false,
and — given the index had no result and a selected answer — the submit button
for `i` is enabled again, so the answer may be resubmitted. -/
theorem evalFailure_keeps_state (s : QuizState) (i : Nat) (ev : EvalOutcome)
    (hfail : ev = .badResponse ∨ ∃ m, ev = .err m)
    (hpdf : strTruthy s.pdfContent = true)
    (hq : questionAt s i ≠ none)
    (hans : s.userAnswers.getD i "" ≠ "") :
    (handleSubmitAnswer s i ev).evaluationResults = s.evaluationResults ∧
    (handleSubmitAnswer s i ev).score = s.score ∧
    (handleSubmitAnswer s i ev).isEvaluating.getD i false = false ∧
    (handleSubmitAnswer s i ev).userAnswers = s.userAnswers ∧
    (∀ q, questionAt s i = some q → q.options.length = 4 →
      s.evaluationResults.get? i = some none →
      submitDisabled (handleSubmitAnswer s i ev) i q = false) := by
  have hguard : ¬(strTruthy s.pdfContent = false ∨ questionAt s i = none ∨
      s.userAnswers.getD i "" = "") := by
    push_neg
    refine ⟨by simp [hpdf], hq, hans⟩
  have hmain : ∀ hev : EvalOutcome, hev = .badResponse ∨ (∃ m, hev = .err m) →
      handleSubmitAnswer s i hev =
        { s with isEvaluating :=
            jsArraySet false (jsArraySet false s.isEvaluating i true) i false } := by
    intro hev hf
    rcases hf with rfl | ⟨m, rfl⟩ <;>
      · unfold handleSubmitAnswer
        rw [if_neg hguard]
  rw [hmain ev hfail]
  refine ⟨rfl, rfl, jsArraySet_getD_self _ _ _ _ _, rfl, ?_⟩
  intro q hq' hopt hres
  simp only [submitDisabled]
  rw [jsNeNull_eq_false_of_get?_none _ _ hres, jsArraySet_getD_self,
    beq_eq_false_iff_ne.mpr hans, hopt]
  simp

/-- Witness for C4: a rejected evaluator call at an answered session. -/
theorem evalFailure_keeps_state_witness :
    (handleSubmitAnswer answeredState 0 (.err "429")).evaluationResults =
      answeredState.evaluationResults ∧
    (handleSubmitAnswer answeredState 0 (.err "429")).score = answeredState.score ∧
    (handleSubmitAnswer answeredState 0 (.err "429")).isEvaluating.getD 0 false = false ∧
    (handleSubmitAnswer answeredState 0 (.err "429")).userAnswers =
      answeredState.userAnswers ∧
    (∀ q, questionAt answeredState 0 = some q → q.options.length = 4 →
      answeredState.evaluationResults.get? 0 = some none →
      submitDisabled (handleSubmitAnswer answeredState 0 (.err "429")) 0 q = false) :=
  evalFailure_keeps_state answeredState 0 (.err "429") (Or.inr ⟨"429", rfl⟩)
    (by decide) (by decide) (by decide)

/-! ## Reduction lemmas for the guarded UI operations -/

theorem selectAnswer_eq_of_questionAt_none {s : QuizState} {i : Nat}
    (hq : questionAt s i = none) (v : String) : selectAnswer s i v = s := by
  unfold questionAt at hq
  unfold selectAnswer
  cases hqq : s.questions with
  | none => rfl
  | some qs =>
      rw [hqq] at hq
      have hq' : qs.get? i = none := hq
      show (match qs.get? i with
            | none => s
            | some q =>
                if q.options.length = 4 ∧ radioGroupDisabled s i = false then
                  handleAnswerChange s i v
                else s) = s
      rw [hq']

theorem selectAnswer_eq_of_questionAt {s : QuizState} {i : Nat} {q : Question}
    (hq : questionAt s i = some q) (v : String) :
    selectAnswer s i v =
      if q.options.length = 4 ∧ radioGroupDisabled s i = false then
        handleAnswerChange s i v
      else s := by
  unfold questionAt at hq
  unfold selectAnswer
  cases hqq : s.questions with
  | none => rw [hqq] at hq; cases hq
  | some qs =>
      rw [hqq] at hq
      have hq' : qs.get? i = some q := hq
      show (match qs.get? i with
            | none => s
            | some q =>
                if q.options.length = 4 ∧ radioGroupDisabled s i = false then
                  handleAnswerChange s i v
                else s) = _
      rw [hq']

theorem submitAnswer_eq_of_questionAt {s : QuizState} {i : Nat} {q : Question}
    (hq : questionAt s i = some q) (ev : EvalOutcome) :
    submitAnswer s i ev =
      if submitDisabled s i q then s else handleSubmitAnswer s i ev := by
  unfold questionAt at hq
  unfold submitAnswer
  cases hqq : s.questions with
  | none => rw [hqq] at hq; cases hq
  | some qs =>
      rw [hqq] at hq
      have hq' : qs.get? i = some q := hq
      show (match qs.get? i with
            | none => s
            | some q =>
                if submitDisabled s i q then s else handleSubmitAnswer s i ev) = _
      rw [hq']

/-- C2: answer selection is guarded by the RadioGroup's disabled state.
Whenever the index holds a non-null evaluation result or is mid-evaluation,
`selectAnswer` leaves the state (in particular the user answer) unchanged;
when the index is enabled, it stores the value at the index. -/
theorem selectAnswer_guarded (s : QuizState) (i : Nat) (v : String) :
    (((s.evaluationResults.getD i none).isSome = true ∨
        s.isEvaluating.getD i false = true) →
      selectAnswer s i v = s) ∧
    (∀ q, questionAt s i = some q → q.options.length = 4 →
      jsNeNull s.evaluationResults i = false →
      s.isEvaluating.getD i false = false →
      (selectAnswer s i v).userAnswers = jsArraySet "" s.userAnswers i v) := by
  constructor
  · intro hdis
    have hdis' : radioGroupDisabled s i = true := by
      unfold radioGroupDisabled
      rcases hdis with h | h
      · rw [jsNeNull_of_getD_isSome _ _ h]
        rfl
      · rw [h]
        simp
    cases hq : questionAt s i with
    | none => exact selectAnswer_eq_of_questionAt_none hq v
    | some q =>
        rw [selectAnswer_eq_of_questionAt hq v, if_neg]
        rintro ⟨-, hfalse⟩
        rw [hdis'] at hfalse
        cases hfalse
  · intro q hq hopt hne hev
    have hdis' : radioGroupDisabled s i = false := by
      unfold radioGroupDisabled
      rw [hne, hev]
      rfl
    rw [selectAnswer_eq_of_questionAt hq v, if_pos ⟨hopt, hdis'⟩]
    rfl

/-- Witness for C2: selecting at an already-evaluated index is a no-op. -/
theorem selectAnswer_guarded_witness :
    selectAnswer evaluatedState 0 "B" = evaluatedState :=
  (selectAnswer_guarded evaluatedState 0 "B").1 (Or.inl (by decide))

/-- C1: from a state where index `i` is submittable (question present with 4
options, truthy pdf content, non-empty answer, null result, not evaluating),
a successful evaluation with `score === 1` increments the running total by
exactly one, and a second submission at the same index — whatever its
outcome — is a no-op under the single-evaluation-per-index policy, so the
total is never incremented again. -/
theorem submitAnswer_scores_once (s : QuizState) (i : Nat) (q : Question)
    (ev2 : EvalOutcome)
    (hq : questionAt s i = some q) (hopt : q.options.length = 4)
    (hpdf : strTruthy s.pdfContent = true)
    (hans : s.userAnswers.getD i "" ≠ "")
    (hres : s.evaluationResults.get? i = some none)
    (hev : s.isEvaluating.getD i false = false) :
    (submitAnswer s i (.ok 1)).score = s.score + 1 ∧
    submitAnswer (submitAnswer s i (.ok 1)) i ev2 = submitAnswer s i (.ok 1) := by
  have hdis : submitDisabled s i q = false := by
    unfold submitDisabled
    rw [jsNeNull_eq_false_of_get?_none _ _ hres, hev,
      beq_eq_false_iff_ne.mpr hans, hopt]
    rfl
  have hguard : ¬(strTruthy s.pdfContent = false ∨ questionAt s i = none ∨
      s.userAnswers.getD i "" = "") := by
    rintro (h | h | h)
    · rw [hpdf] at h; cases h
    · rw [hq] at h; cases h
    · exact hans h
  have h1 : submitAnswer s i (.ok 1) = handleSubmitAnswer s i (.ok 1) := by
    rw [submitAnswer_eq_of_questionAt hq (.ok 1), hdis]
    rfl
  have h2 : handleSubmitAnswer s i (.ok 1) =
      { s with evaluationResults :=
                 jsArraySet none s.evaluationResults i (some { score := 1 })
               score := s.score + 1
               isEvaluating :=
                 jsArraySet false (jsArraySet false s.isEvaluating i true) i false } := by
    unfold handleSubmitAnswer
    rw [if_neg hguard]
    rfl
  rw [h1, h2]
  refine ⟨rfl, ?_⟩
  have hres2 : (jsArraySet none s.evaluationResults i
      (some ({ score := 1 } : EvaluationResult))).get? i =
      some (some { score := 1 }) := jsArraySet_get?_self _ _ _ _
  have hq2 : questionAt
      { s with evaluationResults :=
                 jsArraySet none s.evaluationResults i (some { score := 1 })
               score := s.score + 1
               isEvaluating :=
                 jsArraySet false (jsArraySet false s.isEvaluating i true) i false }
      i = some q := hq
  rw [submitAnswer_eq_of_questionAt hq2 ev2, if_pos]
  simp [submitDisabled, jsNeNull_of_get?_some _ _ _ hres2]

/-- Witness for C1 at a one-question answered session. -/
theorem submitAnswer_scores_once_witness :
    (submitAnswer answeredState 0 (.ok 1)).score = answeredState.score + 1 ∧
    submitAnswer (submitAnswer answeredState 0 (.ok 1)) 0 (.ok 1) =
      submitAnswer answeredState 0 (.ok 1) :=
  submitAnswer_scores_once answeredState 0 sampleQuestion (.ok 1) (by decide)
    (by decide) (by decide) (by decide) (by decide) (by decide)

/-! ## The PDF magic-byte check -/

theorem hexByte_length (b : Nat) :
    (hexByte b).length = 1 ∨ (hexByte b).length = 2 := by
  unfold hexByte
  split <;> simp

theorem hexDigit_inv : ∀ m, m < 16 →
    (hexDigit m = '2' → m = 2) ∧ (hexDigit m = '5' → m = 5) ∧
    (hexDigit m = '0' → m = 0) ∧ (hexDigit m = '4' → m = 4) ∧
    (hexDigit m = '6' → m = 6) := by decide

/-- The concatenation of four unpadded byte renderings equals `"25504446"`
only for the genuine `%PDF` bytes: an 8-character total forces every piece to
be two characters, which pins each byte down. -/
theorem hexConcat4_eq_sig {a b c d : Nat} (ha : a < 256) (hb : b < 256)
    (hc : c < 256) (hd : d < 256)
    (h : hexByte a ++ (hexByte b ++ (hexByte c ++ (hexByte d ++ []))) =
      pdfSignatureHex) :
    a = 0x25 ∧ b = 0x50 ∧ c = 0x44 ∧ d = 0x46 := by
  unfold hexByte at h
  split_ifs at h <;> simp [pdfSignatureHex] at h
  obtain ⟨e1, e2, e3, e4, e5, e6, e7, e8⟩ := h
  have h1 := (hexDigit_inv (a / 16) (by omega)).1 e1
  have h2 := (hexDigit_inv (a % 16) (by omega)).2.1 e2
  have h3 := (hexDigit_inv (b / 16) (by omega)).2.1 e3
  have h4 := (hexDigit_inv (b % 16) (by omega)).2.2.1 e4
  have h5 := (hexDigit_inv (c / 16) (by omega)).2.2.2.1 e5
  have h6 := (hexDigit_inv (c % 16) (by omega)).2.2.2.1 e6
  have h7 := (hexDigit_inv (d / 16) (by omega)).2.2.2.1 e7
  have h8 := (hexDigit_inv (d % 16) (by omega)).2.2.2.2 e8
  refine ⟨by omega, by omega, by omega, by omega⟩

/-- The header comparison in `handleFileUpload` succeeds exactly on byte
streams whose first four bytes are `%PDF`. -/
theorem byteHeaderHex_eq_sig_iff (bytes : List Nat) (hb : ∀ x ∈ bytes, x < 256) :
    byteHeaderHex bytes = pdfSignatureHex ↔ bytes.take 4 = pdfMagicBytes := by
  rcases bytes with _ | ⟨a, _ | ⟨b, _ | ⟨c, _ | ⟨d, rest⟩⟩⟩⟩
  · decide
  · constructor
    · intro h
      exfalso
      have hlen := congrArg List.length h
      rw [show byteHeaderHex [a] = hexByte a ++ [] from rfl] at hlen
      rcases hexByte_length a with h1 | h1 <;>
        simp [pdfSignatureHex, h1] at hlen
    · intro h
      exact absurd (show [a] = pdfMagicBytes from h) (by simp [pdfMagicBytes])
  · constructor
    · intro h
      exfalso
      have hlen := congrArg List.length h
      rw [show byteHeaderHex [a, b] = hexByte a ++ (hexByte b ++ []) from rfl] at hlen
      rcases hexByte_length a with h1 | h1 <;>
        rcases hexByte_length b with h2 | h2 <;>
          simp [pdfSignatureHex, h1, h2] at hlen
    · intro h
      exact absurd (show [a, b] = pdfMagicBytes from h) (by simp [pdfMagicBytes])
  · constructor
    · intro h
      exfalso
      have hlen := congrArg List.length h
      rw [show byteHeaderHex [a, b, c] = hexByte a ++ (hexByte b ++ (hexByte c ++ []))
        from rfl] at hlen
      rcases hexByte_length a with h1 | h1 <;>
        rcases hexByte_length b with h2 | h2 <;>
          rcases hexByte_length c with h3 | h3 <;>
            simp [pdfSignatureHex, h1, h2, h3] at hlen
    · intro h
      exact absurd (show [a, b, c] = pdfMagicBytes from h) (by simp [pdfMagicBytes])
  · have ha := hb a (by simp)
    have hbb := hb b (by simp)
    have hcc := hb c (by simp)
    have hdd := hb d (by simp)
    constructor
    · intro h
      rw [show byteHeaderHex (a :: b :: c :: d :: rest) =
            hexByte a ++ (hexByte b ++ (hexByte c ++ (hexByte d ++ []))) from rfl] at h
      obtain ⟨rfl, rfl, rfl, rfl⟩ := hexConcat4_eq_sig ha hbb hcc hdd h
      rfl
    · intro h
      have h' : [a, b, c, d] = pdfMagicBytes := h
      simp only [pdfMagicBytes, List.cons.injEq, and_true] at h'
      obtain ⟨rfl, rfl, rfl, rfl⟩ := h'
      rfl

/-- C5: file intake with a successful text read sets `isPdfUploaded = true`
exactly when the file's first four bytes are the PDF signature
`0x25 0x50 0x44 0x46`; for every other byte sequence the session is reset to
empty (no pdf content, no questions, score 0, upload flag down). -/
theorem fileUpload_validates_magic (s : QuizState) (bytes : List Nat)
    (content : String) (hb : ∀ x ∈ bytes, x < 256) :
    ((handleFileUpload s bytes (some content)).isPdfUploaded = true ↔
      bytes.take 4 = pdfMagicBytes) ∧
    (bytes.take 4 ≠ pdfMagicBytes →
      (handleFileUpload s bytes (some content)).pdfContent = none ∧
      (handleFileUpload s bytes (some content)).questions = none ∧
      (handleFileUpload s bytes (some content)).score = 0 ∧
      (handleFileUpload s bytes (some content)).isPdfUploaded = false ∧
      (handleFileUpload s bytes (some content)).userAnswers = [] ∧
      (handleFileUpload s bytes (some content)).evaluationResults = [] ∧
      (handleFileUpload s bytes (some content)).isLoading = false) := by
  have hiff := byteHeaderHex_eq_sig_iff bytes hb
  by_cases hm : byteHeaderHex bytes = pdfSignatureHex
  · have heq : handleFileUpload s bytes (some content) =
        { s with pdfContent := some content
                 questions := none
                 userAnswers := []
                 evaluationResults := []
                 score := 0
                 isPdfUploaded := true
                 isLoading := false } := by
      unfold handleFileUpload
      rw [if_neg (fun hc => hc hm)]
    rw [heq]
    exact ⟨by simp [hiff.mp hm], fun ht => absurd (hiff.mp hm) ht⟩
  · have heq : handleFileUpload s bytes (some content) =
        { s with pdfContent := none
                 questions := none
                 userAnswers := []
                 evaluationResults := []
                 score := 0
                 isPdfUploaded := false
                 isLoading := false
                 isEvaluating := [] } := by
      unfold handleFileUpload
      rw [if_pos hm]
      rfl
    rw [heq]
    refine ⟨?_, fun _ => ⟨rfl, rfl, rfl, rfl, rfl, rfl, rfl⟩⟩
    simp only [show (false = true) ↔ False from by simp, false_iff]
    exact fun ht => hm (hiff.mpr ht)

/-- Witness for C5: the genuine `%PDF` header flips the upload flag. -/
theorem fileUpload_validates_magic_witness :
    (handleFileUpload initialState [0x25, 0x50, 0x44, 0x46]
      (some "sample pdf text")).isPdfUploaded = true :=
  ((fileUpload_validates_magic initialState [0x25, 0x50, 0x44, 0x46]
      "sample pdf text" (by decide)).1).mpr (by decide)

/-! ## Length-invariant preservation -/

theorem lengthInvariant_of_questions_none {s : QuizState}
    (h : s.questions = none) : lengthInvariant s := by
  unfold lengthInvariant
  rw [h]
  exact trivial

theorem lengthInvariant_elim {s : QuizState} {qs : List Question}
    (hs : lengthInvariant s) (hq : s.questions = some qs) :
    s.userAnswers.length = qs.length ∧ s.evaluationResults.length = qs.length ∧
      s.isEvaluating.length = qs.length := by
  unfold lengthInvariant at hs
  rw [hq] at hs
  exact hs

theorem lengthInvariant_intro {s : QuizState}
    (h : ∀ qs, s.questions = some qs →
      s.userAnswers.length = qs.length ∧ s.evaluationResults.length = qs.length ∧
        s.isEvaluating.length = qs.length) : lengthInvariant s := by
  unfold lengthInvariant
  cases hqq : s.questions with
  | none => exact trivial
  | some qs => exact h qs hqq

theorem questionAt_some_parts {s : QuizState} {i : Nat} {q : Question}
    (hq : questionAt s i = some q) :
    ∃ qs, s.questions = some qs ∧ qs.get? i = some q ∧ i < qs.length := by
  unfold questionAt at hq
  cases hqq : s.questions with
  | none => rw [hqq] at hq; cases hq
  | some qs =>
      rw [hqq] at hq
      have hq' : qs.get? i = some q := hq
      refine ⟨qs, rfl, hq', ?_⟩
      by_contra hge
      rw [List.get?_eq_none.mpr (by omega)] at hq'
      cases hq'

theorem jsArraySet_twice_length {α : Type} (pad : α) (l : List α) (i : Nat)
    (v w : α) (h : i < l.length) :
    (jsArraySet pad (jsArraySet pad l i v) i w).length = l.length := by
  rw [jsArraySet_length_of_lt _ _ _ _
        (by rw [jsArraySet_length_of_lt _ _ _ _ h]; exact h),
      jsArraySet_length_of_lt _ _ _ _ h]

/-- Field behaviour of `handleSubmitAnswer` needed for the length invariant:
`questions` and `userAnswers` are never touched, and when `i` is in range the
two arrays it writes keep their lengths. -/
theorem handleSubmitAnswer_lengths (s : QuizState) (i : Nat) (ev : EvalOutcome)
    (hr : i < s.evaluationResults.length) (he : i < s.isEvaluating.length) :
    (handleSubmitAnswer s i ev).questions = s.questions ∧
    (handleSubmitAnswer s i ev).userAnswers = s.userAnswers ∧
    (handleSubmitAnswer s i ev).evaluationResults.length =
      s.evaluationResults.length ∧
    (handleSubmitAnswer s i ev).isEvaluating.length = s.isEvaluating.length := by
  unfold handleSubmitAnswer
  split
  · exact ⟨rfl, rfl, rfl, rfl⟩
  · split
    · split
      · exact ⟨rfl, rfl, jsArraySet_length_of_lt _ _ _ _ hr,
          jsArraySet_twice_length _ _ _ _ _ he⟩
      · exact ⟨rfl, rfl, jsArraySet_length_of_lt _ _ _ _ hr,
          jsArraySet_twice_length _ _ _ _ _ he⟩
    · exact ⟨rfl, rfl, rfl, jsArraySet_twice_length _ _ _ _ _ he⟩
    · exact ⟨rfl, rfl, rfl, jsArraySet_twice_length _ _ _ _ _ he⟩

/-- C3: once questions exist, every operation of the component preserves the
invariant that `questions`, `userAnswers`, `evaluationResults` and
`isEvaluating` share the same length. -/
theorem ops_preserve_lengthInvariant (s : QuizState) (hs : lengthInvariant s) :
    (∀ bytes textRead, lengthInvariant (handleFileUpload s bytes textRead)) ∧
    (∀ g, lengthInvariant (handleGenerateQuestions s g)) ∧
    (∀ i v, lengthInvariant (selectAnswer s i v)) ∧
    (∀ i ev, lengthInvariant (handleSubmitAnswer s i ev)) ∧
    (∀ i ev, lengthInvariant (submitAnswer s i ev)) ∧
    (∀ raw, lengthInvariant (handleQuestionCountChange s raw)) ∧
    lengthInvariant (handleClear s) := by
  have hupload : ∀ bytes textRead, lengthInvariant (handleFileUpload s bytes textRead) := by
    intro bytes textRead
    apply lengthInvariant_of_questions_none
    unfold handleFileUpload
    split
    · rfl
    · cases textRead with
      | none => rfl
      | some content => rfl
  have hgen : ∀ g, lengthInvariant (handleGenerateQuestions s g) := by
    intro g
    unfold handleGenerateQuestions
    split
    · exact hs
    · split
      · split
        · exact lengthInvariant_of_questions_none rfl
        · refine lengthInvariant_intro (fun qs' hqs' => ?_)
          simp at hqs'
          subst hqs'
          exact ⟨by simp, by simp, by simp⟩
      · exact lengthInvariant_of_questions_none rfl
      · exact lengthInvariant_of_questions_none rfl
  have hsub0 : ∀ i ev, lengthInvariant (handleSubmitAnswer s i ev) := by
    intro i ev
    by_cases hg : strTruthy s.pdfContent = false ∨ questionAt s i = none ∨
        s.userAnswers.getD i "" = ""
    · have heq : handleSubmitAnswer s i ev = s := by
        unfold handleSubmitAnswer
        rw [if_pos hg]
      rw [heq]
      exact hs
    · push_neg at hg
      obtain ⟨-, hqa, -⟩ := hg
      obtain ⟨q, hq⟩ : ∃ q, questionAt s i = some q := by
        cases hqa2 : questionAt s i with
        | none => exact absurd hqa2 hqa
        | some q => exact ⟨q, rfl⟩
      obtain ⟨qs, hqq, hgi, hilt⟩ := questionAt_some_parts hq
      obtain ⟨h1, h2, h3⟩ := lengthInvariant_elim hs hqq
      obtain ⟨f1, f2, f3, f4⟩ :=
        handleSubmitAnswer_lengths s i ev (by omega) (by omega)
      apply lengthInvariant_intro
      intro qs' hqs'
      rw [f1, hqq] at hqs'
      injection hqs' with e
      subst e
      rw [f2, f3, f4]
      exact ⟨h1, h2, h3⟩
  have hsub : ∀ i ev, lengthInvariant (submitAnswer s i ev) := by
    intro i ev
    cases hq : questionAt s i with
    | none =>
        have heq : submitAnswer s i ev = s := by
          unfold questionAt at hq
          unfold submitAnswer
          cases hqq : s.questions with
          | none => rfl
          | some qs =>
              rw [hqq] at hq
              have hq' : qs.get? i = none := hq
              show (match qs.get? i with
                    | none => s
                    | some q =>
                        if submitDisabled s i q then s
                        else handleSubmitAnswer s i ev) = s
              rw [hq']
        rw [heq]
        exact hs
    | some q =>
        rw [submitAnswer_eq_of_questionAt hq ev]
        split
        · exact hs
        · exact hsub0 i ev
  have hsel : ∀ i v, lengthInvariant (selectAnswer s i v) := by
    intro i v
    cases hq : questionAt s i with
    | none =>
        rw [selectAnswer_eq_of_questionAt_none hq v]
        exact hs
    | some q =>
        rw [selectAnswer_eq_of_questionAt hq v]
        split
        · obtain ⟨qs, hqq, hgi, hilt⟩ := questionAt_some_parts hq
          obtain ⟨h1, h2, h3⟩ := lengthInvariant_elim hs hqq
          have hua : (handleAnswerChange s i v).userAnswers.length =
              s.userAnswers.length :=
            jsArraySet_length_of_lt _ _ _ _ (by omega)
          apply lengthInvariant_intro
          intro qs' hqs'
          have hqs'' : s.questions = some qs' := hqs'
          rw [hqq] at hqs''
          injection hqs'' with e
          subst e
          rw [hua]
          exact ⟨h1, h2, h3⟩
        · exact hs
  have hqc : ∀ raw, lengthInvariant (handleQuestionCountChange s raw) := by
    intro raw
    apply lengthInvariant_intro
    intro qs' hqs'
    exact lengthInvariant_elim hs hqs'
  have hclear : lengthInvariant (handleClear s) :=
    lengthInvariant_of_questions_none rfl
  exact ⟨hupload, hgen, hsel, hsub0, hsub, hqc, hclear⟩

/-- Witness for C3: the invariant holds after clearing a well-formed
one-question session. -/
theorem ops_preserve_lengthInvariant_witness :
    lengthInvariant (handleClear answeredState) :=
  (ops_preserve_lengthInvariant answeredState ⟨rfl, rfl, rfl⟩).2.2.2.2.2.2
